import Mathlib

/-!
Shallow embedding of `ansible/modules/hashivault/hashivault_auth_ldap.py`:
an Ansible module that reconciles the LDAP auth-method configuration of a
Vault server.  The module builds a desired-state dict from its parameters,
reads the current remote configuration (an `InvalidPath` read is treated as
an empty current state), compares the two key by key (skipping the secret
`bindpass` field; a key missing from the current state aborts with an
"HVAC unsupported parameter" failure), and calls
`client.auth.ldap.configure(**desired_state)` exactly when a difference was
found and check mode is off.
-/

/-- A value stored in one of the module's dicts: the parameter values are
strings, booleans, integers, lists of strings, or Python's `None`. -/
inductive Value where
  | str (s : String)
  | bool (b : Bool)
  | int (n : Int)
  | list (xs : List String)
  | none
deriving DecidableEq, Repr

/-- A Python dict as an insertion-ordered association list (Python dicts
iterate in insertion order, which the comparison loop relies on). -/
abbrev Dict := List (String × Value)

/-- `d[k]` as an option: the value at key `k`, or `none` when `k` raises
`KeyError`. -/
def lookupKey (d : Dict) (k : String) : Option Value :=
  match d with
  | [] => Option.none
  | (k', v) :: rest => if k' = k then Option.some v else lookupKey rest k

/-- `del d[k]`: drop the entry at key `k`, keeping insertion order. -/
def delKey (d : Dict) (k : String) : Dict :=
  d.filter (fun kv => kv.1 != k)

/-- The module's parameters after Ansible applied the argspec of
`main` (lines 183-214): each field typed and defaulted per its
`dict(...)` entry; `bindpass` has default `None`, hence an `Option`. -/
structure Params where
  mount_point : String
  anonymous_group_search : Bool
  binddn : String
  bindpass : Option String
  case_sensitive_names : Bool
  certificate : String
  deny_null_bind : Bool
  discoverdn : Bool
  groupattr : String
  groupdn : String
  groupfilter : String
  insecure_tls : Bool
  request_timeout : Int
  starttls : Bool
  tls_max_version : String
  tls_min_version : String
  token_bound_cidrs : List String
  token_explicit_max_ttl : Int
  token_max_ttl : Int
  token_no_default_policy : Bool
  token_num_uses : Int
  token_period : Int
  token_policies : List String
  token_ttl : Int
  token_type : String
  upndomain : String
  ldap_url : String
  use_token_groups : Bool
  userattr : String
  userdn : String
  userfilter : String
  username_as_alias : Bool
deriving DecidableEq

/-- The names declared in the argspec of `main` (lines 183-214): the keys
assigned into `argspec` there.  (`use_pre111_group_cn_behavior` is notably
absent: the module never declares it.) -/
def argspecNames : List String :=
  ["mount_point", "anonymous_group_search", "binddn", "bindpass",
   "case_sensitive_names", "certificate", "deny_null_bind", "discoverdn",
   "groupattr", "groupdn", "groupfilter", "insecure_tls", "request_timeout",
   "starttls", "tls_max_version", "tls_min_version", "token_bound_cidrs",
   "token_explicit_max_ttl", "token_max_ttl", "token_no_default_policy",
   "token_num_uses", "token_period", "token_policies", "token_ttl",
   "token_type", "upndomain", "ldap_url", "use_token_groups", "userattr",
   "userdn", "userfilter", "username_as_alias"]

/-- Python's `str.lower()` on the ASCII fragment the module's attribute
names use: lower-case every character.  (Defined by structural recursion so
it evaluates; core's `String.toLower` is the same `Char.toLower` map.) -/
def lowerStr (s : String) : String := String.mk (s.data.map Char.toLower)

/-- The `desired_state` dict literal of lines 230-263, in source order.
`params.get('use_pre111_group_cn_behavior')` is `None` because that key is
never declared in the argspec; `groupattr`/`userattr` are lower-cased; the
`ldap_url` parameter is stored under the key `url`. -/
def desiredStateRaw (p : Params) : Dict :=
  [("anonymous_group_search", Value.bool p.anonymous_group_search),
   ("binddn", Value.str p.binddn),
   ("bindpass", match p.bindpass with
                | Option.some s => Value.str s
                | Option.none => Value.none),
   ("case_sensitive_names", Value.bool p.case_sensitive_names),
   ("certificate", Value.str p.certificate),
   ("deny_null_bind", Value.bool p.deny_null_bind),
   ("discoverdn", Value.bool p.discoverdn),
   ("groupattr", Value.str (lowerStr p.groupattr)),
   ("groupdn", Value.str p.groupdn),
   ("groupfilter", Value.str p.groupfilter),
   ("insecure_tls", Value.bool p.insecure_tls),
   ("request_timeout", Value.int p.request_timeout),
   ("starttls", Value.bool p.starttls),
   ("tls_max_version", Value.str p.tls_max_version),
   ("tls_min_version", Value.str p.tls_min_version),
   ("token_bound_cidrs", Value.list p.token_bound_cidrs),
   ("token_explicit_max_ttl", Value.int p.token_explicit_max_ttl),
   ("token_max_ttl", Value.int p.token_max_ttl),
   ("token_no_default_policy", Value.bool p.token_no_default_policy),
   ("token_num_uses", Value.int p.token_num_uses),
   ("token_period", Value.int p.token_period),
   ("token_policies", Value.list p.token_policies),
   ("token_ttl", Value.int p.token_ttl),
   ("token_type", Value.str p.token_type),
   ("upndomain", Value.str p.upndomain),
   ("url", Value.str p.ldap_url),
   ("use_pre111_group_cn_behavior", Value.none),
   ("use_token_groups", Value.bool p.use_token_groups),
   ("userattr", Value.str (lowerStr p.userattr)),
   ("userdn", Value.str p.userdn),
   ("userfilter", Value.str p.userfilter),
   ("username_as_alias", Value.bool p.username_as_alias)]

/-- Lines 265-267: if `bindpass` is `None` it is deleted from the desired
state, so an unsupplied secret is neither compared nor written. -/
def buildDesiredState (p : Params) : Dict :=
  let d := desiredStateRaw p
  match p.bindpass with
  | Option.none => delKey d "bindpass"
  | Option.some _ => d

/-- Outcome of `client.auth.ldap.read_configuration(mount_point=...)` as the
module distinguishes it: a data dict, or the `InvalidPath` exception (the
auth method was never configured). -/
inductive ReadResult where
  | ok (data : Dict)
  | invalidPath
deriving DecidableEq

/-- Lines 270-276: the current state is the read data, or an empty dict when
the read raised `InvalidPath`. -/
def currentOf : ReadResult → Dict
  | ReadResult.ok data => data
  | ReadResult.invalidPath => []

/-- The dict the module returns: a `failed` result with a message, or a
result with `changed` and the `diff` of `before` (current) and `after`
(desired). -/
inductive ModuleResult where
  | failure (msg : String)
  | success (changed : Bool) (before : Dict) (after : Dict)
deriving DecidableEq

/-- The comparison loop of lines 279-287: walk the desired dict in order;
skip key `bindpass`; a key absent from the current dict raises `KeyError`,
returned as the `HVAC unsupported parameter` failure message (Python's
`str(KeyError(k))` is `k` in single quotes); otherwise a differing value
sets `changed`.  The loop does not short-circuit on a difference, only on a
missing key. -/
def compareLoop : Dict → Dict → Bool → Except String Bool
  | [], _, changed => Except.ok changed
  | (k, v) :: rest, current, changed =>
    if k = "bindpass" then compareLoop rest current changed
    else
      match lookupKey current k with
      | Option.none =>
          Except.error ("HVAC unsupported parameter: '" ++ k ++ "'")
      | Option.some cv =>
          compareLoop rest current (if v = cv then changed else true)

/-- Lines 269-299 of `hashivault_auth_ldap`, after the desired state is
built: compute the current state from the read outcome, run the comparison
loop, call `client.auth.ldap.configure(**desired_state)` when `changed` and
check mode is off, and return the result.  The second component is the
trace of `configure` calls, each carrying exactly the keyword-argument dict
passed (the call takes no mount point). -/
def reconcile (desired : Dict) (readRes : ReadResult) (checkMode : Bool) :
    ModuleResult × List Dict :=
  let current := currentOf readRes
  match compareLoop desired current false with
  | Except.error msg => (ModuleResult.failure msg, [])
  | Except.ok changed =>
      (ModuleResult.success changed current desired,
       if changed && !checkMode then [desired] else [])

/-- The whole of `hashivault_auth_ldap` over an abstract server: `server`
maps the mount point of the single read call to its outcome.  Returns the
module result, the list of read calls (each recording the `mount_point`
argument passed to `read_configuration`), and the list of `configure`
calls. -/
def runModule (p : Params) (server : String → ReadResult) (checkMode : Bool) :
    ModuleResult × List String × List Dict :=
  let desired := buildDesiredState p
  let outcome := reconcile desired (server p.mount_point) checkMode
  (outcome.1, [p.mount_point], outcome.2)

/-- Argspec defaults of `main` (lines 183-214), used for concrete
witnesses. -/
def defaultParams : Params :=
  { mount_point := "ldap"
    anonymous_group_search := false
    binddn := ""
    bindpass := Option.none
    case_sensitive_names := false
    certificate := ""
    deny_null_bind := true
    discoverdn := false
    groupattr := "cn"
    groupdn := ""
    groupfilter := "(|(memberUid={{.Username}})(member={{.UserDN}})(uniqueMember={{.UserDN}}))"
    insecure_tls := false
    request_timeout := 90
    starttls := false
    tls_max_version := "tls12"
    tls_min_version := "tls12"
    token_bound_cidrs := []
    token_explicit_max_ttl := 0
    token_max_ttl := 0
    token_no_default_policy := false
    token_num_uses := 0
    token_period := 0
    token_policies := []
    token_ttl := 0
    token_type := "default"
    upndomain := ""
    ldap_url := "ldap://127.0.0.1"
    use_token_groups := false
    userattr := "cn"
    userdn := ""
    userfilter := "({{.UserAttr}}={{.Username}})"
    username_as_alias := false }

/-- The non-secret entries of a dict: everything except key `bindpass`. -/
def nonSecret (d : Dict) : Dict :=
  d.filter (fun kv => kv.1 != "bindpass")

/-- Whether some non-secret entry of the desired dict differs from the
current dict (assuming its key is present). -/
def anyDiff (d current : Dict) : Bool :=
  d.any fun kv =>
    !(decide (kv.1 = "bindpass")) &&
      !(decide (lookupKey current kv.1 = Option.some kv.2))

/-- When every non-secret desired key is present in the current dict, the
comparison loop completes without failure and its `changed` flag is the
accumulator or-ed with `anyDiff`. -/
theorem compareLoop_of_present (d current : Dict) (b : Bool)
    (h : ∀ kv ∈ d, kv.1 ≠ "bindpass" → lookupKey current kv.1 ≠ Option.none) :
    compareLoop d current b = Except.ok (b || anyDiff d current) := by
  induction d generalizing b with
  | nil => simp [compareLoop, anyDiff]
  | cons kv rest ih =>
    obtain ⟨k, v⟩ := kv
    have hrest : ∀ kv ∈ rest, kv.1 ≠ "bindpass" →
        lookupKey current kv.1 ≠ Option.none := by
      intro kv hm hk
      exact h kv (List.mem_cons_of_mem _ hm) hk
    by_cases hk : k = "bindpass"
    · subst hk
      rw [compareLoop, if_pos rfl, ih _ hrest]
      simp [anyDiff]
    · have hne := h (k, v) (List.mem_cons_self _ _) hk
      cases hcur : lookupKey current k with
      | none => exact absurd hcur hne
      | some cv =>
        rw [compareLoop, if_neg hk, hcur]
        show compareLoop rest current (if v = cv then b else true) = _
        rw [ih _ hrest]
        by_cases hvc : v = cv
        · subst hvc
          simp [anyDiff, hcur, hk]
        · simp [anyDiff, hcur, hk, Ne.symm hvc, Bool.or_assoc]
          exact Or.inl hvc

/-- C1: when every non-secret key of the desired state is present in the
current state with an equal value, `reconcile` returns `changed = false`
with the before/after diff and makes no `configure` call, whatever the
check-mode flag. -/
theorem reconcile_changed_false_of_match (desired current : Dict) (checkMode : Bool)
    (h : ∀ kv ∈ desired, kv.1 ≠ "bindpass" →
        lookupKey current kv.1 = Option.some kv.2) :
    reconcile desired (ReadResult.ok current) checkMode =
      (ModuleResult.success false current desired, []) := by
  have hp : ∀ kv ∈ desired, kv.1 ≠ "bindpass" →
      lookupKey current kv.1 ≠ Option.none := by
    intro kv hm hk
    rw [h kv hm hk]
    simp
  have hd : anyDiff desired current = false := by
    rw [anyDiff, List.any_eq_false]
    intro kv hm
    by_cases hk : kv.1 = "bindpass"
    · simp [hk]
    · simp [hk, h kv hm hk]
  rw [reconcile]
  show (match compareLoop desired current false with
    | Except.error msg => (ModuleResult.failure msg, [])
    | Except.ok changed =>
        (ModuleResult.success changed current desired,
         if changed && !checkMode then [desired] else [])) = _
  rw [compareLoop_of_present desired current false hp, hd]
  simp

/-- Witness for C1: the desired state built from the default parameters
against a current state equal to its non-secret entries reconciles to
`changed = false` with no `configure` call. -/
theorem reconcile_changed_false_of_match_witness :
    reconcile (buildDesiredState defaultParams)
        (ReadResult.ok (nonSecret (buildDesiredState defaultParams))) true =
      (ModuleResult.success false (nonSecret (buildDesiredState defaultParams))
        (buildDesiredState defaultParams), []) :=
  reconcile_changed_false_of_match _ _ _ (by decide)

/-- C2: when every desired key is present in the current state and some
non-secret key differs, `reconcile` reports `changed = true`; with check
mode off the `configure` call is made exactly once, with the full desired
state — which contains the secret `bindpass` entry whenever it was
supplied. -/
theorem reconcile_changed_true_write_once (p : Params) (current : Dict) (checkMode : Bool)
    (hp : ∀ kv ∈ buildDesiredState p, lookupKey current kv.1 ≠ Option.none)
    (hd : ∃ kv ∈ buildDesiredState p, kv.1 ≠ "bindpass" ∧
        lookupKey current kv.1 ≠ Option.some kv.2) :
    reconcile (buildDesiredState p) (ReadResult.ok current) checkMode =
      (ModuleResult.success true current (buildDesiredState p),
       if checkMode then [] else [buildDesiredState p]) ∧
    ∀ s, p.bindpass = Option.some s →
      ("bindpass", Value.str s) ∈ buildDesiredState p := by
  constructor
  · have hp' : ∀ kv ∈ buildDesiredState p, kv.1 ≠ "bindpass" →
        lookupKey current kv.1 ≠ Option.none := fun kv hm _ => hp kv hm
    have ha : anyDiff (buildDesiredState p) current = true := by
      rw [anyDiff, List.any_eq_true]
      obtain ⟨kv, hm, hk, hv⟩ := hd
      exact ⟨kv, hm, by simp [hk, hv]⟩
    rw [reconcile]
    show (match compareLoop (buildDesiredState p) current false with
      | Except.error msg => (ModuleResult.failure msg, [])
      | Except.ok changed =>
          (ModuleResult.success changed current (buildDesiredState p),
           if changed && !checkMode then [buildDesiredState p] else [])) = _
    rw [compareLoop_of_present _ _ false hp', ha]
    cases checkMode <;> simp
  · intro s hs
    simp [buildDesiredState, desiredStateRaw, hs]

/-- Witness for C2: desired LDAP url `ldap://b` with a supplied bindpass
against a current state holding `ldap://a` yields `changed = true` and one
`configure` call with the full desired state, bindpass included. -/
theorem reconcile_changed_true_write_once_witness :
    reconcile
        (buildDesiredState
          { defaultParams with bindpass := Option.some "x", ldap_url := "ldap://b" })
        (ReadResult.ok (buildDesiredState
          { defaultParams with bindpass := Option.some "x", ldap_url := "ldap://a" }))
        false =
      (ModuleResult.success true
        (buildDesiredState
          { defaultParams with bindpass := Option.some "x", ldap_url := "ldap://a" })
        (buildDesiredState
          { defaultParams with bindpass := Option.some "x", ldap_url := "ldap://b" }),
       [buildDesiredState
          { defaultParams with bindpass := Option.some "x", ldap_url := "ldap://b" }]) ∧
    ∀ s, Params.bindpass
        { defaultParams with bindpass := Option.some "x", ldap_url := "ldap://b" } =
          Option.some s →
      ("bindpass", Value.str s) ∈ buildDesiredState
        { defaultParams with bindpass := Option.some "x", ldap_url := "ldap://b" } :=
  reconcile_changed_true_write_once _ _ false (by decide) (by decide)

/-- When some non-secret desired key is missing from the current dict, the
comparison loop aborts with the `HVAC unsupported parameter` failure for
the first such key (in dict order), whatever the accumulator. -/
theorem compareLoop_error_of_missing (d current : Dict)
    (h : ∃ kv ∈ d, kv.1 ≠ "bindpass" ∧ lookupKey current kv.1 = Option.none) :
    ∀ b, ∃ k, lookupKey current k = Option.none ∧ k ≠ "bindpass" ∧
      (∃ v, (k, v) ∈ d) ∧
      compareLoop d current b =
        Except.error ("HVAC unsupported parameter: '" ++ k ++ "'") := by
  induction d with
  | nil => simp at h
  | cons kv rest ih =>
    obtain ⟨k, v⟩ := kv
    intro b
    by_cases hk : k = "bindpass"
    · subst hk
      have hrest : ∃ kv ∈ rest, kv.1 ≠ "bindpass" ∧
          lookupKey current kv.1 = Option.none := by
        obtain ⟨kv, hm, hk', hmiss⟩ := h
        rcases List.mem_cons.mp hm with heq | hm'
        · subst heq
          exact absurd rfl hk'
        · exact ⟨kv, hm', hk', hmiss⟩
      obtain ⟨k', hmiss', hk', ⟨v', hv'⟩, hloop⟩ := ih hrest b
      refine ⟨k', hmiss', hk', ⟨v', List.mem_cons_of_mem _ hv'⟩, ?_⟩
      rw [compareLoop, if_pos rfl, hloop]
    · cases hcur : lookupKey current k with
      | none =>
        refine ⟨k, hcur, hk, ⟨v, List.mem_cons_self _ _⟩, ?_⟩
        rw [compareLoop, if_neg hk, hcur]
      | some cv =>
        have hrest : ∃ kv ∈ rest, kv.1 ≠ "bindpass" ∧
            lookupKey current kv.1 = Option.none := by
          obtain ⟨kv, hm, hk', hmiss⟩ := h
          rcases List.mem_cons.mp hm with heq | hm'
          · subst heq
            rw [hmiss] at hcur
            exact absurd hcur (by simp)
          · exact ⟨kv, hm', hk', hmiss⟩
        obtain ⟨k', hmiss', hk', ⟨v', hv'⟩, hloop⟩ :=
          ih hrest (if v = cv then b else true)
        refine ⟨k', hmiss', hk', ⟨v', List.mem_cons_of_mem _ hv'⟩, ?_⟩
        rw [compareLoop, if_neg hk, hcur]
        show compareLoop rest current (if v = cv then b else true) = _
        exact hloop

/-- C3: when the (successfully read) current state lacks a non-secret key
the desired state defines, `reconcile` returns a failure whose message
names that missing key, and no `configure` call is made. -/
theorem reconcile_fails_on_missing_key (desired current : Dict) (checkMode : Bool)
    (h : ∃ kv ∈ desired, kv.1 ≠ "bindpass" ∧
        lookupKey current kv.1 = Option.none) :
    ∃ k, lookupKey current k = Option.none ∧ k ≠ "bindpass" ∧
      (∃ v, (k, v) ∈ desired) ∧
      reconcile desired (ReadResult.ok current) checkMode =
        (ModuleResult.failure ("HVAC unsupported parameter: '" ++ k ++ "'"),
         []) := by
  obtain ⟨k, hmiss, hk, hv, hloop⟩ := compareLoop_error_of_missing desired current h false
  refine ⟨k, hmiss, hk, hv, ?_⟩
  rw [reconcile]
  show (match compareLoop desired current false with
    | Except.error msg => (ModuleResult.failure msg, [])
    | Except.ok changed =>
        (ModuleResult.success changed current desired,
         if changed && !checkMode then [desired] else [])) = _
  rw [hloop]

/-- Witness for C3: against a current state missing every key, the default
desired state fails naming a missing key and performs no write. -/
theorem reconcile_fails_on_missing_key_witness :
    ∃ k, lookupKey [("url", Value.str "ldap://a")] k = Option.none ∧
      k ≠ "bindpass" ∧ (∃ v, (k, v) ∈ buildDesiredState defaultParams) ∧
      reconcile (buildDesiredState defaultParams)
          (ReadResult.ok [("url", Value.str "ldap://a")]) false =
        (ModuleResult.failure ("HVAC unsupported parameter: '" ++ k ++ "'"),
         []) :=
  reconcile_fails_on_missing_key _ _ false (by decide)

/-- Every entry of `delKey d k` keeps its lookup except key `k`, which is
gone. -/
theorem lookup_delKey (d : Dict) (k : String) :
    lookupKey (delKey d k) k = Option.none := by
  induction d with
  | nil => rfl
  | cons kv rest ih =>
    rw [delKey, List.filter_cons]
    by_cases h : kv.1 = k
    · simp only [h, bne_self_eq_false, Bool.false_eq_true, if_false]
      exact ih
    · simp only [bne_iff_ne, ne_eq, h, not_false_eq_true, if_true]
      rw [lookupKey, if_neg h]
      exact ih

/-- C4: the secret `bindpass` field plays no part in the comparison — the
loop computes the same outcome on a desired dict with all `bindpass`
entries removed — and when the caller supplies no bindpass the built
desired state has no `bindpass` key at all, so it is neither compared,
written, nor reported in the diff. -/
theorem bindpass_excluded_from_compare :
    (∀ d current b, compareLoop (nonSecret d) current b = compareLoop d current b) ∧
    (∀ p, p.bindpass = Option.none →
      lookupKey (buildDesiredState p) "bindpass" = Option.none) := by
  constructor
  · intro d current b
    induction d generalizing b with
    | nil => rfl
    | cons kv rest ih =>
      obtain ⟨k, v⟩ := kv
      by_cases hk : k = "bindpass"
      · subst hk
        have h1 : nonSecret (("bindpass", v) :: rest) = nonSecret rest := by
          rw [nonSecret, nonSecret, List.filter_cons]
          simp
        have h2 : compareLoop (("bindpass", v) :: rest) current b =
            compareLoop rest current b := by
          rw [compareLoop, if_pos rfl]
        rw [h1, h2, ih]
      · have h1 : nonSecret ((k, v) :: rest) = (k, v) :: nonSecret rest := by
          rw [nonSecret, nonSecret, List.filter_cons]
          simp [hk]
        rw [h1, compareLoop, compareLoop, if_neg hk, if_neg hk]
        cases lookupKey current k with
        | none => rfl
        | some cv =>
          show compareLoop (nonSecret rest) current (if v = cv then b else true) =
            compareLoop rest current (if v = cv then b else true)
          exact ih _
  · intro p hp
    rw [buildDesiredState, hp]
    exact lookup_delKey _ _

/-- Witness for C4: on the default parameters (no bindpass supplied) the
built desired state has no `bindpass` key, and stripping `bindpass` from a
dict that has one leaves the comparison outcome unchanged. -/
theorem bindpass_excluded_from_compare_witness :
    compareLoop (nonSecret [("bindpass", Value.str "x"), ("url", Value.str "u")])
        [("url", Value.str "u")] false =
      compareLoop [("bindpass", Value.str "x"), ("url", Value.str "u")]
        [("url", Value.str "u")] false ∧
    lookupKey (buildDesiredState defaultParams) "bindpass" = Option.none :=
  ⟨bindpass_excluded_from_compare.1 _ _ false,
   bindpass_excluded_from_compare.2 defaultParams rfl⟩

/-- C5: with check mode on, `reconcile` makes no `configure` call, while
the returned result (failure or `changed` plus before/after diff) is the
same as with check mode off. -/
theorem check_mode_no_write (desired : Dict) (readRes : ReadResult) :
    (reconcile desired readRes true).2 = [] ∧
    (reconcile desired readRes true).1 = (reconcile desired readRes false).1 := by
  rw [reconcile, reconcile]
  cases compareLoop desired (currentOf readRes) false <;> simp

/-- C6: an `InvalidPath` read (the auth method was never configured) is not
a failure: the module proceeds exactly as if it had read an empty
configuration. -/
theorem invalid_path_as_empty_state (desired : Dict) (checkMode : Bool) :
    reconcile desired ReadResult.invalidPath checkMode =
      reconcile desired (ReadResult.ok []) checkMode := rfl

/-- Counterexample to C7 as stated: the built desired state always contains
the key `use_pre111_group_cn_behavior` (with value `None`), which is not a
declared argspec name (nor is the desired-state key `url`: the declared
name is `ldap_url`). -/
theorem desired_key_not_in_argspec :
    ("use_pre111_group_cn_behavior", Value.none) ∈ buildDesiredState defaultParams ∧
    "use_pre111_group_cn_behavior" ∉ argspecNames ∧
    ("url", Value.str "ldap://127.0.0.1") ∈ buildDesiredState defaultParams ∧
    "url" ∉ argspecNames := by decide

/-- C7 amended: every key of the built desired state is a declared argspec
name except exactly the renamed `url` (from `ldap_url`) and the undeclared
`use_pre111_group_cn_behavior`. -/
theorem desired_keys_subset_argspec_amended (p : Params) :
    ∀ kv ∈ buildDesiredState p, kv.1 ∈ argspecNames ∨ kv.1 = "url" ∨
      kv.1 = "use_pre111_group_cn_behavior" := by
  intro kv hm
  obtain ⟨k, v⟩ := kv
  have hraw : (k, v) ∈ desiredStateRaw p := by
    rw [buildDesiredState] at hm
    cases hb : p.bindpass with
    | none =>
      rw [hb] at hm
      exact List.mem_of_mem_filter hm
    | some s =>
      rw [hb] at hm
      exact hm
  have hkey : k ∈ (desiredStateRaw p).map Prod.fst :=
    List.mem_map_of_mem Prod.fst hraw
  have hlist : (desiredStateRaw p).map Prod.fst =
      ["anonymous_group_search", "binddn", "bindpass", "case_sensitive_names",
       "certificate", "deny_null_bind", "discoverdn", "groupattr", "groupdn",
       "groupfilter", "insecure_tls", "request_timeout", "starttls",
       "tls_max_version", "tls_min_version", "token_bound_cidrs",
       "token_explicit_max_ttl", "token_max_ttl", "token_no_default_policy",
       "token_num_uses", "token_period", "token_policies", "token_ttl",
       "token_type", "upndomain", "url", "use_pre111_group_cn_behavior",
       "use_token_groups", "userattr", "userdn", "userfilter",
       "username_as_alias"] := rfl
  rw [hlist] at hkey
  fin_cases hkey <;> simp [argspecNames]

/-- Witness for the amended C7: the key `binddn` of the default desired
state is a declared argspec name (or one of the two exceptions). -/
theorem desired_keys_subset_argspec_witness :
    ("binddn", Value.str "").1 ∈ argspecNames ∨ ("binddn", Value.str "").1 = "url" ∨
      ("binddn", Value.str "").1 = "use_pre111_group_cn_behavior" :=
  desired_keys_subset_argspec_amended defaultParams ("binddn", Value.str "") (by decide)

/-- C8: `userattr` and `groupattr` are lower-cased when the desired state
is built, so two parameter sets that differ only in the letter case of
those two fields build identical desired states and reconcile identically
for every read outcome and check-mode flag. -/
theorem attr_lowercase_insensitive (p : Params) (ua ga : String)
    (hu : lowerStr ua = lowerStr p.userattr) (hg : lowerStr ga = lowerStr p.groupattr) :
    buildDesiredState { p with userattr := ua, groupattr := ga } =
      buildDesiredState p ∧
    ∀ readRes checkMode,
      reconcile (buildDesiredState { p with userattr := ua, groupattr := ga })
          readRes checkMode =
        reconcile (buildDesiredState p) readRes checkMode := by
  have hraw : desiredStateRaw { p with userattr := ua, groupattr := ga } =
      desiredStateRaw p := by
    rw [desiredStateRaw, desiredStateRaw]
    simp [hu, hg]
  have hbuild : buildDesiredState { p with userattr := ua, groupattr := ga } =
      buildDesiredState p := by
    rw [buildDesiredState, buildDesiredState, hraw]
  exact ⟨hbuild, fun readRes checkMode => by rw [hbuild]⟩

/-- Witness for C8: a supplied `groupattr` of `CN` builds the same desired
state as `cn`, and against a current state holding `cn` it reconciles to
`changed = false`. -/
theorem attr_lowercase_insensitive_witness :
    (buildDesiredState { defaultParams with userattr := "cn", groupattr := "CN" } =
       buildDesiredState defaultParams ∧
     ∀ readRes checkMode,
       reconcile
           (buildDesiredState
             { defaultParams with userattr := "cn", groupattr := "CN" })
           readRes checkMode =
         reconcile (buildDesiredState defaultParams) readRes checkMode) ∧
    (reconcile
        (buildDesiredState { defaultParams with userattr := "cn", groupattr := "CN" })
        (ReadResult.ok (nonSecret (buildDesiredState defaultParams))) false).1 =
      ModuleResult.success false (nonSecret (buildDesiredState defaultParams))
        (buildDesiredState defaultParams) :=
  ⟨attr_lowercase_insensitive defaultParams "cn" "CN" (by decide) (by decide),
   by decide⟩

/-- C9 (implicit): when the read reports the auth method as not configured
(`InvalidPath`, hence an empty current state), every built desired state
makes `reconcile` fail on its first compared key,
`anonymous_group_search`, and make no `configure` call — first-time
creation through this module is impossible. -/
theorem unconfigured_always_schema_mismatch (p : Params) (checkMode : Bool) :
    reconcile (buildDesiredState p) ReadResult.invalidPath checkMode =
      (ModuleResult.failure
        "HVAC unsupported parameter: 'anonymous_group_search'", []) := by
  have hfirst : ∃ rest, buildDesiredState p =
      ("anonymous_group_search", Value.bool p.anonymous_group_search) :: rest := by
    rw [buildDesiredState, desiredStateRaw]
    cases p.bindpass with
    | none =>
      rw [delKey, List.filter_cons]
      simp only [bne_iff_ne, ne_eq, not_false_eq_true, if_true]
      exact ⟨_, rfl⟩
    | some s => exact ⟨_, rfl⟩
  obtain ⟨rest, hrest⟩ := hfirst
  rw [reconcile, hrest]
  show (match compareLoop
      (("anonymous_group_search", Value.bool p.anonymous_group_search) :: rest)
      [] false with
    | Except.error msg => (ModuleResult.failure msg, [])
    | Except.ok changed =>
        (ModuleResult.success changed []
          (("anonymous_group_search", Value.bool p.anonymous_group_search) :: rest),
         if changed && !checkMode
         then [("anonymous_group_search", Value.bool p.anonymous_group_search) :: rest]
         else [])) = _
  rw [compareLoop]
  simp [lookupKey]

/-- C10 (implicit): the `mount_point` parameter is passed only to the read
call; the `configure` call receives exactly the desired-state dict and no
mount point.  Changing `mount_point` changes which configuration is read
(the read-call trace) but — whenever the read outcome is the same — neither
the result nor the write calls, and every write call is exactly the built
desired state. -/
theorem mount_point_only_read (p : Params) (m : String)
    (server : String → ReadResult) (checkMode : Bool)
    (h : server m = server p.mount_point) :
    (runModule { p with mount_point := m } server checkMode).1 =
      (runModule p server checkMode).1 ∧
    (runModule { p with mount_point := m } server checkMode).2.2 =
      (runModule p server checkMode).2.2 ∧
    (runModule p server checkMode).2.1 = [p.mount_point] ∧
    (runModule { p with mount_point := m } server checkMode).2.1 = [m] ∧
    ∀ w ∈ (runModule p server checkMode).2.2, w = buildDesiredState p := by
  have hb : buildDesiredState { p with mount_point := m } = buildDesiredState p := rfl
  have hread : (server ({ p with mount_point := m } : Params).mount_point) =
      server p.mount_point := h
  refine ⟨?_, ?_, rfl, rfl, ?_⟩
  · rw [runModule, runModule, hb, hread]
  · rw [runModule, runModule, hb, hread]
  · intro w hw
    rw [runModule] at hw
    simp only at hw
    rw [reconcile] at hw
    rcases hloop : compareLoop (buildDesiredState p)
        (currentOf (server p.mount_point)) false with msg | changed
    · rw [hloop] at hw
      simp at hw
    · rw [hloop] at hw
      simp only at hw
      by_cases hc : (changed && !checkMode) = true
      · rw [if_pos hc] at hw
        simpa using hw
      · rw [if_neg hc] at hw
        simp at hw

/-- Witness for C10: with a server that answers `InvalidPath` on every
mount, moving the default parameters to mount `other` changes only the
recorded read call. -/
theorem mount_point_only_read_witness :
    (runModule { defaultParams with mount_point := "other" }
        (fun _ => ReadResult.invalidPath) false).1 =
      (runModule defaultParams (fun _ => ReadResult.invalidPath) false).1 ∧
    (runModule { defaultParams with mount_point := "other" }
        (fun _ => ReadResult.invalidPath) false).2.2 =
      (runModule defaultParams (fun _ => ReadResult.invalidPath) false).2.2 ∧
    (runModule defaultParams (fun _ => ReadResult.invalidPath) false).2.1 =
      ["ldap"] ∧
    (runModule { defaultParams with mount_point := "other" }
        (fun _ => ReadResult.invalidPath) false).2.1 = ["other"] ∧
    ∀ w ∈ (runModule defaultParams (fun _ => ReadResult.invalidPath) false).2.2,
      w = buildDesiredState defaultParams :=
  mount_point_only_read defaultParams "other" (fun _ => ReadResult.invalidPath)
    false rfl
